/-
Verification of the rtklient repository's protocol decoders.

Shallow embedding conventions:
  * Python `bytes` values are modelled as `List Nat` (each element a byte value).
  * Python `str` values are modelled as Lean `String` (ASCII content in practice).
  * Python floats are modelled as rationals (`ℚ`); IEEE-754 rounding, `inf`/`nan`
    literals, underscore digit separators and unicode digits are out of scope.
  * A Python function that can raise an exception is modelled as returning
    `Option`, with `none` standing for "an exception escapes".
  * Functions are translated from `src/ntripdecoder.py` and `src/gpsdecoder.py`.
-/
import Mathlib

set_option maxHeartbeats 1000000
set_option maxRecDepth 10000

/-! ## ntripdecoder.py : CRC-24 engine -/

/-- `CRC24_TABLE` from ntripdecoder.py (256-entry lookup table). -/
def CRC24_TABLE : List Nat := [
  0x000000, 0x864cfb, 0x8ad50d, 0x0c99f6, 0x93e6e1, 0x15aa1a, 0x1933ec, 0x9f7f17,
  0xa18139, 0x27cdc2, 0x2b5434, 0xad18cf, 0x3267d8, 0xb42b23, 0xb8b2d5, 0x3efe2e,
  0xc54e89, 0x430272, 0x4f9b84, 0xc9d77f, 0x56a868, 0xd0e493, 0xdc7d65, 0x5a319e,
  0x64cfb0, 0xe2834b, 0xee1abd, 0x685646, 0xf72951, 0x7165aa, 0x7dfc5c, 0xfbb0a7,
  0x0cd1e9, 0x8a9d12, 0x8604e4, 0x00481f, 0x9f3708, 0x197bf3, 0x15e205, 0x93aefe,
  0xad50d0, 0x2b1c2b, 0x2785dd, 0xa1c926, 0x3eb631, 0xb8faca, 0xb4633c, 0x322fc7,
  0xc99f60, 0x4fd39b, 0x434a6d, 0xc50696, 0x5a7981, 0xdc357a, 0xd0ac8c, 0x56e077,
  0x681e59, 0xee52a2, 0xe2cb54, 0x6487af, 0xfbf8b8, 0x7db443, 0x712db5, 0xf7614e,
  0x19a3d2, 0x9fef29, 0x9376df, 0x153a24, 0x8a4533, 0x0c09c8, 0x00903e, 0x86dcc5,
  0xb822eb, 0x3e6e10, 0x32f7e6, 0xb4bb1d, 0x2bc40a, 0xad88f1, 0xa11107, 0x275dfc,
  0xdced5b, 0x5aa1a0, 0x563856, 0xd074ad, 0x4f0bba, 0xc94741, 0xc5deb7, 0x43924c,
  0x7d6c62, 0xfb2099, 0xf7b96f, 0x71f594, 0xee8a83, 0x68c678, 0x645f8e, 0xe21375,
  0x15723b, 0x933ec0, 0x9fa736, 0x19ebcd, 0x8694da, 0x00d821, 0x0c41d7, 0x8a0d2c,
  0xb4f302, 0x32bff9, 0x3e260f, 0xb86af4, 0x2715e3, 0xa15918, 0xadc0ee, 0x2b8c15,
  0xd03cb2, 0x567049, 0x5ae9bf, 0xdca544, 0x43da53, 0xc596a8, 0xc90f5e, 0x4f43a5,
  0x71bd8b, 0xf7f170, 0xfb6886, 0x7d247d, 0xe25b6a, 0x641791, 0x688e67, 0xeec29c,
  0x3347a4, 0xb50b5f, 0xb992a9, 0x3fde52, 0xa0a145, 0x26edbe, 0x2a7448, 0xac38b3,
  0x92c69d, 0x148a66, 0x181390, 0x9e5f6b, 0x01207c, 0x876c87, 0x8bf571, 0x0db98a,
  0xf6092d, 0x7045d6, 0x7cdc20, 0xfa90db, 0x65efcc, 0xe3a337, 0xef3ac1, 0x69763a,
  0x578814, 0xd1c4ef, 0xdd5d19, 0x5b11e2, 0xc46ef5, 0x42220e, 0x4ebbf8, 0xc8f703,
  0x3f964d, 0xb9dab6, 0xb54340, 0x330fbb, 0xac70ac, 0x2a3c57, 0x26a5a1, 0xa0e95a,
  0x9e1774, 0x185b8f, 0x14c279, 0x928e82, 0x0df195, 0x8bbd6e, 0x872498, 0x016863,
  0xfad8c4, 0x7c943f, 0x700dc9, 0xf64132, 0x693e25, 0xef72de, 0xe3eb28, 0x65a7d3,
  0x5b59fd, 0xdd1506, 0xd18cf0, 0x57c00b, 0xc8bf1c, 0x4ef3e7, 0x426a11, 0xc426ea,
  0x2ae476, 0xaca88d, 0xa0317b, 0x267d80, 0xb90297, 0x3f4e6c, 0x33d79a, 0xb59b61,
  0x8b654f, 0x0d29b4, 0x01b042, 0x87fcb9, 0x1883ae, 0x9ecf55, 0x9256a3, 0x141a58,
  0xefaaff, 0x69e604, 0x657ff2, 0xe33309, 0x7c4c1e, 0xfa00e5, 0xf69913, 0x70d5e8,
  0x4e2bc6, 0xc8673d, 0xc4fecb, 0x42b230, 0xddcd27, 0x5b81dc, 0x57182a, 0xd154d1,
  0x26359f, 0xa07964, 0xace092, 0x2aac69, 0xb5d37e, 0x339f85, 0x3f0673, 0xb94a88,
  0x87b4a6, 0x01f85d, 0x0d61ab, 0x8b2d50, 0x145247, 0x921ebc, 0x9e874a, 0x18cbb1,
  0xe37b16, 0x6537ed, 0x69ae1b, 0xefe2e0, 0x709df7, 0xf6d10c, 0xfa48fa, 0x7c0401,
  0x42fa2f, 0xc4b6d4, 0xc82f22, 0x4e63d9, 0xd11cce, 0x575035, 0x5bc9c3, 0xdd8538]

/-- One iteration of the `crc24` loop:
`val = (val << 8) ^ CRC24_TABLE[byte ^ ((val >> 16) & 0xff)]`.
In the source the table index is always in range because `byte` comes from a
`bytes` object (so is below 256); the `getD` default can therefore never fire
for real inputs (the checked variant `crc24C_go` below makes this precise). -/
def crc24_step (val byte : Nat) : Nat :=
  (val <<< 8) ^^^ CRC24_TABLE.getD (byte ^^^ ((val >>> 16) &&& 0xff)) 0

/-- The `for byte in data` loop of `crc24`. -/
def crc24_go (val : Nat) : List Nat → Nat
  | [] => val
  | b :: rest => crc24_go (crc24_step val b) rest

/-- `crc24(data)` from ntripdecoder.py: table-driven 24-bit CRC, masked to
24 bits on return (as in the source, the accumulator itself is unmasked). -/
def crc24 (data : List Nat) : Nat :=
  crc24_go 0 data &&& 0xffffff

/-- Checked variant of the `crc24` loop: the table lookup uses `get?`, so an
out-of-range index (a Python `IndexError`) surfaces as `none`. -/
def crc24C_go (val : Nat) : List Nat → Option Nat
  | [] => some val
  | b :: rest =>
    match CRC24_TABLE.get? (b ^^^ ((val >>> 16) &&& 0xff)) with
    | some e => crc24C_go ((val <<< 8) ^^^ e) rest
    | none => none

/-- Checked `crc24`: `none` models an escaping exception. -/
def crc24C (data : List Nat) : Option Nat :=
  (crc24C_go 0 data).map (· &&& 0xffffff)

/-! ## ntripdecoder.py : stream reassembler -/

/-- `bin_index(data, b)` from ntripdecoder.py: index of the first occurrence
of byte `b` in `data`, `-1` if not found (the source catches the
`ValueError` of `data.index`). -/
def bin_index (data : List Nat) (b : Nat) : Int :=
  match data with
  | [] => -1
  | x :: rest =>
    if x = b then 0
    else if bin_index rest b = -1 then -1 else bin_index rest b + 1

/-- `RTCM_START = 0xd3` from ntripdecoder.py. -/
def RTCM_START : Nat := 0xd3

/-- `NtripDecode.get_msg` from ntripdecoder.py, as a function from the
accumulator `self.data` to the pair (returned message `d`, new accumulator).
Byte accesses use `getD`; for the inputs the source can receive they are
always in bounds (see `get_msgC` for the checked version). -/
def get_msg (data : List Nat) : List Nat × List Nat :=
  let idx := bin_index data RTCM_START
  if 3 < idx ∧ data.getD (idx.toNat - 2) 0 = 0x0d ∧ data.getD (idx.toNat - 1) 0 = 0x0a then
    (data.take idx.toNat, data.drop idx.toNat)
  else if idx = 0 ∧ 2 < data.length then
    let n := ((data.getD 1 0) <<< 8) + data.getD 2 0
    if 1024 < n then ([], [])
    else if n + 6 ≤ data.length then
      let d := data.take (n + 6)
      if crc24 d = 0 then (d, data.drop d.length)
      else ([], [])
    else ([], data)
  else if 0 < idx then ([], data.drop idx.toNat)
  else ([], data)

/-- `NtripDecode.receive_rtcm` from ntripdecoder.py: append the polled block
(when one arrived and is non-empty — Python truthiness of `part`) to the
accumulator, then run `get_msg`.  Returns (message, new accumulator). -/
def receive_rtcm : List Nat → Option (List Nat) → List Nat × List Nat
  | data, none => get_msg data
  | data, some p => get_msg (if p.isEmpty then data else data ++ p)

/-- Modelled from the spec: the variant of `get_msg` that the specification
describes, reading the payload length as the 10-bit value encoded in bytes
1-2 (masking byte 1 to its low two bits) instead of the full 16-bit word.
Used only to compare the spec's framing description with the source's. -/
def get_msgSpecLen10 (data : List Nat) : List Nat × List Nat :=
  let idx := bin_index data RTCM_START
  if 3 < idx ∧ data.getD (idx.toNat - 2) 0 = 0x0d ∧ data.getD (idx.toNat - 1) 0 = 0x0a then
    (data.take idx.toNat, data.drop idx.toNat)
  else if idx = 0 ∧ 2 < data.length then
    let n := (((data.getD 1 0) &&& 0x3) <<< 8) + data.getD 2 0
    if 1024 < n then ([], [])
    else if n + 6 ≤ data.length then
      let d := data.take (n + 6)
      if crc24 d = 0 then (d, data.drop d.length)
      else ([], [])
    else ([], data)
  else if 0 < idx then ([], data.drop idx.toNat)
  else ([], data)

/-- Checked `get_msg`: every byte access of the source (`self.data[idx-2]`,
`self.data[idx-1]`, `self.data[1]`, `self.data[2]`) is performed with `get?`,
and the CRC uses the checked table lookup, so any Python `IndexError` would
surface as `none`.  Mirrors the source's short-circuit evaluation order.
`get_msgC_rest` is the `elif` chain of `get_msg` (branches 2-4), split out of
`get_msgC` only so the agreement proof can reuse it. -/
def get_msgC_rest (data : List Nat) : Option (List Nat × List Nat) :=
  if bin_index data RTCM_START = 0 ∧ 2 < data.length then
    match data.get? 1, data.get? 2 with
    | some a1, some a2 =>
      let n := (a1 <<< 8) + a2
      if 1024 < n then some ([], [])
      else if n + 6 ≤ data.length then
        match crc24C (data.take (n + 6)) with
        | some c =>
          if c = 0 then some (data.take (n + 6), data.drop (n + 6))
          else some ([], [])
        | none => none
      else some ([], data)
    | _, _ => none
  else if 0 < bin_index data RTCM_START then
    some ([], data.drop (bin_index data RTCM_START).toNat)
  else some ([], data)

def get_msgC (data : List Nat) : Option (List Nat × List Nat) :=
  let idx := bin_index data RTCM_START
  if 3 < idx then
    match data.get? (idx.toNat - 2) with
    | none => none
    | some b2 =>
      if b2 = 0x0d then
        match data.get? (idx.toNat - 1) with
        | none => none
        | some b1 =>
          if b1 = 0x0a then some (data.take idx.toNat, data.drop idx.toNat)
          else get_msgC_rest data
      else get_msgC_rest data
  else get_msgC_rest data

/-- Checked `receive_rtcm`. -/
def receive_rtcmC : List Nat → Option (List Nat) → Option (List Nat × List Nat)
  | data, none => get_msgC data
  | data, some p => get_msgC (if p.isEmpty then data else data ++ p)

/-! ## Python-style string primitives shared by gpsdecoder.py and
ntripdecoder.py

Python `str` values are modelled as `List Char`, so that every operation is a
plain structural recursion; `String` literals enter through `.data`.  Every
`split` performed by the source uses a one-character separator. -/

/-- Python's `pat in s` substring containment test
(note `"" in s` is `True` in Python). -/
def py_in (pat : List Char) : List Char → Bool
  | [] => pat.isEmpty
  | c :: rest => pat.isPrefixOf (c :: rest) || py_in pat rest

/-- Python `s.split(sep)` for a one-character separator. -/
def pySplit (sep : Char) : List Char → List (List Char)
  | [] => [[]]
  | c :: rest =>
    match pySplit sep rest with
    | [] => [[]]
    | g :: gs => if c = sep then [] :: g :: gs else (c :: g) :: gs

/-- Numeric value of a digit string (meaningful when every character is a
decimal digit). -/
def digitsVal (cs : List Char) : Nat :=
  cs.foldl (fun a c => a * 10 + (c.toNat - 48)) 0

/-- Non-empty all-decimal-digit test. -/
def allDigits (cs : List Char) : Bool :=
  !cs.isEmpty && cs.all Char.isDigit

/-- Python `int(str)` on the string forms the repository feeds it: an optional
sign followed by decimal digits.  (Surrounding whitespace, underscore
separators and non-ASCII digits are out of scope.)  `none` models the
`ValueError` that the callers' `try`/`except` swallows. -/
def pyInt? (s : List Char) : Option Int :=
  match s with
  | '-' :: rest => if allDigits rest then some (-(digitsVal rest : Int)) else none
  | '+' :: rest => if allDigits rest then some ((digitsVal rest : Int)) else none
  | t => if allDigits t then some ((digitsVal t : Int)) else none

/-- Decimal mantissa of a Python float literal: `digits`, `digits.`,
`.digits` or `digits.digits`. -/
def decMantissa? (s : List Char) : Option ℚ :=
  match pySplit '.' s with
  | [i] => if allDigits i then some ((digitsVal i : ℚ)) else none
  | [i, f] =>
    if (i.isEmpty || allDigits i) && (f.isEmpty || allDigits f)
        && !(i.isEmpty && f.isEmpty) then
      some ((digitsVal i : ℚ) + (digitsVal f : ℚ) / (10 : ℚ) ^ f.length)
    else none
  | _ => none

/-- Python `float(str)` restricted to finite decimal/scientific literals,
with exact rational value (IEEE-754 rounding, `inf`/`nan`, whitespace and
underscores out of scope).  `none` models `ValueError`. -/
def pyFloat? (s : List Char) : Option ℚ :=
  let t := s.map Char.toLower
  let su : ℚ × List Char :=
    match t with
    | '-' :: rest => (-1, rest)
    | '+' :: rest => (1, rest)
    | _ => (1, t)
  match pySplit 'e' su.2 with
  | [m] => (decMantissa? m).map (fun q => su.1 * q)
  | [m, ex] =>
    let se : Int × List Char :=
      match ex with
      | '-' :: rest => ((-1 : Int), rest)
      | '+' :: rest => ((1 : Int), rest)
      | _ => ((1 : Int), ex)
    match decMantissa? m with
    | some q =>
      if allDigits se.2 then
        some (su.1 * q * (10 : ℚ) ^ (se.1 * (digitsVal se.2 : Int)))
      else none
    | none => none
  | _ => none

/-! ## gpsdecoder.py -/

/-- `getval(data, dict, s)` from gpsdecoder.py: positional field access that
yields Python `None` (here `none`) when the sentence has too few fields.  The
name-to-index dictionaries (`RMC`, `GSA`, `GGA`) are resolved to the numeric
index at each call site, with the field name in a comment. -/
def getval (data : List (List Char)) (idx : Nat) : Option (List Char) :=
  if idx < data.length then some (data.getD idx []) else none

/-- `str2int(str, default)` from gpsdecoder.py: any exception (unparsable
string, or `int(None)`) is swallowed and yields the default. -/
def str2int (s : Option (List Char)) (default : Int) : Int :=
  match s with
  | none => default
  | some t => (pyInt? t).getD default

/-- `str2float(str, default)` from gpsdecoder.py. -/
def str2float (s : Option (List Char)) (default : ℚ) : ℚ :=
  match s with
  | none => default
  | some t => (pyFloat? t).getD default

/-- `degmin_deg(dm, nsew)` from gpsdecoder.py.  The guard is Python's
`len(dm)>=4 and nsew in "NSEW"`: substring containment, evaluated left to
right with short-circuiting.  A `None` argument reaching `len(dm)` or
`nsew in ...`, or an unparsable slice reaching `float`, raises — modelled as
`none`. -/
def degmin_deg (dm nsew : Option (List Char)) : Option ℚ :=
  match dm with
  | none => none
  | some dms =>
    if 4 ≤ dms.length then
      match nsew with
      | none => none
      | some h =>
        if py_in h "NSEW".data then
          let n : Nat := if py_in h "NS".data then 2 else 3
          match pyFloat? (dms.take n), pyFloat? (dms.drop n) with
          | some a, some b =>
            some (if h = "S".data ∨ h = "W".data then -(a + b / 60) else a + b / 60)
          | _, _ => none
        else some 0
    else some 0

/-- `qualstrs` from gpsdecoder.py. -/
def qualstrs : List String :=
  ["No fix", "GNSS fix", "GNSS fix", "?", "RTK fix", "RTK float", "Estimate"]

/-- The decoder state set up in `GpsDecode.__init__` (every field 0). -/
structure GpsDecode where
  lat : ℚ := 0
  lon : ℚ := 0
  alt : ℚ := 0
  quality : Int := 0
  nsats : Int := 0
  pdop : ℚ := 0
  hdop : ℚ := 0
  vdop : ℚ := 0
  hour : Int := 0
  min : Int := 0
  sec : ℚ := 0
deriving DecidableEq

/-- `GpsDecode.qualstr` from gpsdecoder.py:
`qualstrs[self.quality] if self.quality < len(qualstrs) else "?"`, with
Python tuple indexing semantics: negative indices count from the end, and an
index below `-len` raises `IndexError` (modelled as `none`). -/
def qualstr (quality : Int) : Option String :=
  if quality < (qualstrs.length : Int) then
    if 0 ≤ quality then some (qualstrs.getD quality.toNat "")
    else if 0 ≤ quality + (qualstrs.length : Int) then
      some (qualstrs.getD (quality + (qualstrs.length : Int)).toNat "")
    else none
  else some "?"

/-- `GpsDecode.decode(line)` from gpsdecoder.py, as a function of the current
state and the line.  `data = line[:-3].split(',')`.  Returns `none` when an
exception escapes, otherwise `some` of the new state and the returned value
(`True` after a GGA update; the source's `False` and its falsy `""` for
too-short sentences are both modelled as `false`). -/
def decode (g : GpsDecode) (line : List Char) : Option (GpsDecode × Bool) :=
  let data := pySplit ',' (line.take (line.length - 3))
  if data.length < 3 then some (g, false)
  else if data.getD 0 [] = "$GPGSA".data ∨ data.getD 0 [] = "$GNGSA".data then
    some ({ g with
      pdop := str2float (getval data 15) (9999/100),   -- GSA "PDOP"
      hdop := str2float (getval data 16) (9999/100),   -- GSA "HDOP"
      vdop := str2float (getval data 17) (9999/100) }, -- GSA "VDOP"
      false)
  else if data.getD 0 [] = "$GPGGA".data ∨ data.getD 0 [] = "$GNGGA".data then
    match getval data 1 with                            -- RMC "time"
    | none => none
    | some t =>
      match degmin_deg (getval data 2) (getval data 3) with  -- GGA "lat", "NS"
      | none => none
      | some la =>
        match degmin_deg (getval data 4) (getval data 5) with  -- GGA "lon", "EW"
        | none => none
        | some lo =>
          some ({ g with
            hour := str2int (some (t.take 2)) 0,
            min := str2int (some ((t.drop 2).take 2)) 0,
            sec := str2float (some (t.drop 4)) 0,
            lat := la,
            lon := lo,
            quality := str2int (getval data 6) 0,          -- GGA "quality"
            nsats := str2int (getval data 7) 0,            -- GGA "nsats"
            hdop := str2float (getval data 8) (9999/100),  -- GGA "HDOP"
            alt := str2float (getval data 9) 0 },          -- GGA "alt"
            true)
  else some (g, false)

/-! ## ntripdecoder.py : source table -/

/-- `get_sourcetable_name_pos(line)` from ntripdecoder.py: returns
`(country, name, lat, lon)` = `(data[8], data[1], float(data[9]),
float(data[10]))`; any failure inside the `try` yields `("", "", 0, 0)`. -/
def get_sourcetable_name_pos (line : List Char) :
    List Char × List Char × ℚ × ℚ :=
  let data := pySplit ';' line
  if 10 < data.length then
    match pyFloat? (data.getD 9 []), pyFloat? (data.getD 10 []) with
    | some la, some lo => (data.getD 8 [], data.getD 1 [], la, lo)
    | _, _ => ([], [], 0, 0)
  else ([], [], 0, 0)

/-- The line filter of `NtripDecode.get_sourcetable`: keep the lines that
start with `STR;` and contain `c`, where `c` is `";%s;" % country.upper()`
for a truthy country argument and `";"` otherwise. -/
def sourceLinesOf (table : List Char) (country : Option (List Char)) :
    List (List Char) :=
  let c :=
    match country with
    | some s => if s.isEmpty then ";".data else ';' :: (s.map Char.toUpper) ++ [';']
    | none => ";".data
  (pySplit '\n' table).filter
    (fun line => "STR;".data.isPrefixOf line && py_in c line)

/-- One Python `dict` assignment `m[k] = v` on an insertion-ordered
association list. -/
def dictInsert (m : List (List Char × List Char × ℚ × ℚ)) (k : List Char)
    (v : List Char × ℚ × ℚ) : List (List Char × List Char × ℚ × ℚ) :=
  if m.any (fun p => p.1 == k) then
    m.map (fun p => if p.1 == k then (k, v) else p)
  else m ++ [(k, v)]

/-- The body of the `for line in self.sourcelines` loop of
`get_sourcetable`: `self.sources[name] = country, lat, lon`. -/
def sources_step (srcs : List (List Char × List Char × ℚ × ℚ))
    (line : List Char) : List (List Char × List Char × ℚ × ℚ) :=
  let r := get_sourcetable_name_pos line
  dictInsert srcs r.2.1 (r.1, r.2.2.1, r.2.2.2)

/-- The `self.sources` dictionary built by the loop of `get_sourcetable`. -/
def build_sources (srcs0 : List (List Char × List Char × ℚ × ℚ))
    (lines : List (List Char)) : List (List Char × List Char × ℚ × ℚ) :=
  lines.foldl sources_step srcs0

/-- `NtripDecode.get_sourcetable`, as a function of the received table text
and the country filter, returning the name-keyed mapping it builds. -/
def get_sourcetable_sources (table : List Char) (country : Option (List Char)) :
    List (List Char × List Char × ℚ × ℚ) :=
  build_sources [] (sourceLinesOf table country)

/-! ## Concrete frames used as witnesses and counterexamples -/

/-- A minimal well-formed frame: zero-length payload, correct CRC trailer. -/
def c5frame : List Nat := [0xd3, 0x00, 0x00, 71, 234, 75]

/-- A 1030-byte frame whose header bytes 1-2 read 0x0400 = 1024 as a 16-bit
word (so one reserved bit is set and the 10-bit length field is 0), with an
all-zero payload and a correct CRC trailer. -/
def c1frame : List Nat := [0xd3, 0x04, 0x00] ++ List.replicate 1024 0 ++ [12, 194, 203]

/-- A 262-byte frame whose header bytes 1-2 read 0x0500 = 1280 as a 16-bit
word (10-bit length field 256, one reserved bit set), all-zero payload of
length 256, correct CRC trailer. -/
def f262 : List Nat := [0xd3, 0x05, 0x00] ++ List.replicate 256 0 ++ [72, 70, 190]


/-- Masked-state variant of the `crc24` loop (proof infrastructure: the
source masks only on return; bits above position 23 never influence the
table index nor the final masked value, so long concrete CRCs can be
evaluated in bounded-size chunks). -/
def crc24m_go (val : Nat) : List Nat → Nat
  | [] => val
  | b :: rest => crc24m_go (crc24_step val b &&& 0xffffff) rest

/-! ## Helper lemmas: the CRC accumulator can be masked at every step

The source masks the accumulator only on return, so it grows without bound
during the loop; the bits above position 23 never influence the table index
nor the final masked value.  `crc24m_go` is the per-step-masked variant;
it lets long concrete CRCs be evaluated in bounded-size chunks. -/

lemma crc_idx_mask (v : Nat) : ((v &&& 0xffffff) >>> 16) &&& 0xff = (v >>> 16) &&& 0xff := by
  apply Nat.eq_of_testBit_eq
  intro i
  rw [show (0xffffff : Nat) = 2 ^ 24 - 1 from rfl, show (0xff : Nat) = 2 ^ 8 - 1 from rfl]
  simp only [Nat.testBit_land, Nat.testBit_shiftRight, Nat.testBit_two_pow_sub_one]
  by_cases hi : i < 8
  · have h24 : 16 + i < 24 := by omega
    simp [hi, h24]
  · simp [hi]

lemma crc_step_mask (v t : Nat) :
    ((((v &&& 0xffffff) <<< 8) ^^^ t) &&& 0xffffff) = (((v <<< 8) ^^^ t) &&& 0xffffff) := by
  apply Nat.eq_of_testBit_eq
  intro i
  rw [show (0xffffff : Nat) = 2 ^ 24 - 1 from rfl]
  simp only [Nat.testBit_land, Nat.testBit_xor, Nat.testBit_shiftLeft,
    Nat.testBit_two_pow_sub_one]
  by_cases hi : i < 24
  · by_cases h8 : 8 ≤ i
    · have h16 : i - 8 < 24 := by omega
      simp [hi, h8, h16]
    · simp [hi, h8]
  · simp [hi]

lemma crc24_go_mask (l : List Nat) : ∀ v, crc24_go v l &&& 0xffffff = crc24m_go (v &&& 0xffffff) l := by
  induction l with
  | nil => intro v; rfl
  | cons b rest ih =>
    intro v
    show crc24_go (crc24_step v b) rest &&& 0xffffff
        = crc24m_go (crc24_step (v &&& 0xffffff) b &&& 0xffffff) rest
    rw [ih]
    congr 1
    unfold crc24_step
    rw [crc_idx_mask, crc_step_mask]

lemma crc24_eq_crc24m (data : List Nat) : crc24 data = crc24m_go 0 data := by
  rw [crc24, crc24_go_mask]
  norm_num

lemma crc24m_go_append (l1 l2 : List Nat) :
    ∀ v, crc24m_go v (l1 ++ l2) = crc24m_go (crc24m_go v l1) l2 := by
  induction l1 with
  | nil => intro v; rfl
  | cons b rest ih => intro v; exact ih _

/-! ## Helper lemmas: `bin_index` -/

lemma bin_index_cons_self (x : Nat) (rest : List Nat) : bin_index (x :: rest) x = 0 := by
  simp [bin_index]

lemma bin_index_pos_head (data : List Nat) (b : Nat) (h : 0 < bin_index data b) :
    ∃ x rest, data = x :: rest ∧ x ≠ b := by
  cases data with
  | nil => simp [bin_index] at h
  | cons x rest =>
    refine ⟨x, rest, rfl, ?_⟩
    intro hx
    rw [hx, bin_index_cons_self] at h
    exact lt_irrefl 0 h

lemma bin_index_ge_neg_one (data : List Nat) (b : Nat) : -1 ≤ bin_index data b := by
  induction data with
  | nil => simp [bin_index]
  | cons x rest ih =>
    simp only [bin_index]
    by_cases hx : x = b
    · rw [if_pos hx]; omega
    · rw [if_neg hx]
      by_cases hr : bin_index rest b = -1
      · rw [if_pos hr]
      · rw [if_neg hr]; omega

lemma bin_index_lt_length (data : List Nat) (b : Nat) (h : 0 ≤ bin_index data b) :
    (bin_index data b).toNat < data.length := by
  induction data with
  | nil => simp [bin_index] at h
  | cons x rest ih =>
    simp only [bin_index] at h ⊢
    by_cases hx : x = b
    · rw [if_pos hx]; simp
    · rw [if_neg hx] at h ⊢
      by_cases hr : bin_index rest b = -1
      · rw [if_pos hr] at h; omega
      · rw [if_neg hr] at h ⊢
        have hge := bin_index_ge_neg_one rest b
        have h0 : 0 ≤ bin_index rest b := by omega
        have hlt := ih h0
        simp only [List.length_cons]
        omega

/-! ## Helper lemmas: list access -/

lemma getD_take (l : List Nat) (m i : Nat) (h : i < m) :
    (l.take m).getD i 0 = l.getD i 0 := by
  induction l generalizing m i with
  | nil => simp
  | cons x rest ih =>
    cases m with
    | zero => omega
    | succ m =>
      cases i with
      | zero => simp [List.take_succ_cons]
      | succ i =>
        simp only [List.take_succ_cons, List.getD_cons_succ]
        exact ih m i (by omega)

lemma get?_eq_getD_of_lt (l : List Nat) (i : Nat) (h : i < l.length) :
    l.get? i = some (l.getD i 0) := by
  induction l generalizing i with
  | nil => simp at h
  | cons x rest ih =>
    cases i with
    | zero => rfl
    | succ i =>
      simp only [List.get?_cons_succ, List.getD_cons_succ]
      exact ih i (by simpa using h)

/-! ## Branch lemmas for `get_msg` (one per arm of the source's elif chain) -/

lemma get_msg_text (data : List Nat)
    (h3 : 3 < bin_index data RTCM_START)
    (hcr : data.getD ((bin_index data RTCM_START).toNat - 2) 0 = 0x0d)
    (hlf : data.getD ((bin_index data RTCM_START).toNat - 1) 0 = 0x0a) :
    get_msg data = (data.take (bin_index data RTCM_START).toNat,
                    data.drop (bin_index data RTCM_START).toNat) := by
  simp only [get_msg]
  rw [if_pos ⟨h3, hcr, hlf⟩]

lemma get_msg_noise (data : List Nat)
    (hpos : 0 < bin_index data RTCM_START)
    (hnot : ¬(3 < bin_index data RTCM_START ∧
        data.getD ((bin_index data RTCM_START).toNat - 2) 0 = 0x0d ∧
        data.getD ((bin_index data RTCM_START).toNat - 1) 0 = 0x0a)) :
    get_msg data = ([], data.drop (bin_index data RTCM_START).toNat) := by
  simp only [get_msg]
  rw [if_neg hnot, if_neg (by rintro ⟨h0, -⟩; omega), if_pos hpos]

lemma get_msg_scrub_big (data : List Nat)
    (h0 : bin_index data RTCM_START = 0)
    (hlen : 2 < data.length)
    (hbig : 1024 < ((data.getD 1 0) <<< 8) + data.getD 2 0) :
    get_msg data = ([], []) := by
  simp only [get_msg]
  rw [if_neg (by rw [h0]; simp), if_pos ⟨h0, hlen⟩, if_pos hbig]

lemma get_msg_emit (data : List Nat)
    (h0 : bin_index data RTCM_START = 0)
    (hlen2 : 2 < data.length)
    (hle : ((data.getD 1 0) <<< 8) + data.getD 2 0 ≤ 1024)
    (hfull : ((data.getD 1 0) <<< 8) + data.getD 2 0 + 6 ≤ data.length)
    (hcrc : crc24 (data.take (((data.getD 1 0) <<< 8) + data.getD 2 0 + 6)) = 0) :
    get_msg data = (data.take (((data.getD 1 0) <<< 8) + data.getD 2 0 + 6),
                    data.drop (((data.getD 1 0) <<< 8) + data.getD 2 0 + 6)) := by
  simp only [get_msg]
  rw [if_neg (by rw [h0]; simp), if_pos ⟨h0, hlen2⟩, if_neg (by omega), if_pos hfull,
    if_pos hcrc]
  congr 1
  rw [List.length_take]
  congr 1
  omega

lemma get_msg_crcfail (data : List Nat)
    (h0 : bin_index data RTCM_START = 0)
    (hlen2 : 2 < data.length)
    (hle : ((data.getD 1 0) <<< 8) + data.getD 2 0 ≤ 1024)
    (hfull : ((data.getD 1 0) <<< 8) + data.getD 2 0 + 6 ≤ data.length)
    (hcrc : crc24 (data.take (((data.getD 1 0) <<< 8) + data.getD 2 0 + 6)) ≠ 0) :
    get_msg data = ([], []) := by
  simp only [get_msg]
  rw [if_neg (by rw [h0]; simp), if_pos ⟨h0, hlen2⟩, if_neg (by omega), if_pos hfull,
    if_neg hcrc]

lemma get_msg_incomplete (data : List Nat)
    (h0 : bin_index data RTCM_START = 0)
    (hlen2 : 2 < data.length)
    (hle : ((data.getD 1 0) <<< 8) + data.getD 2 0 ≤ 1024)
    (hshort : data.length < ((data.getD 1 0) <<< 8) + data.getD 2 0 + 6) :
    get_msg data = ([], data) := by
  simp only [get_msg]
  rw [if_neg (by rw [h0]; simp), if_pos ⟨h0, hlen2⟩, if_neg (by omega), if_neg (by omega)]

lemma get_msg_short (data : List Nat)
    (h0 : bin_index data RTCM_START = 0)
    (hlen : data.length ≤ 2) :
    get_msg data = ([], data) := by
  simp only [get_msg]
  rw [if_neg (by rw [h0]; simp), if_neg (by rintro ⟨-, hgt⟩; omega), if_neg (by rw [h0]; simp)]

lemma crc24_c1frame : crc24 c1frame = 0 := by
  have h0 : crc24m_go 0 [0xd3, 0x04, 0x00] = 6003600 := by decide
  have h1 : crc24m_go 6003600 (List.replicate 256 0) = 16186540 := by decide
  have h2 : crc24m_go 16186540 (List.replicate 256 0) = 7533093 := by decide
  have h3 : crc24m_go 7533093 (List.replicate 256 0) = 13356523 := by decide
  have h4 : crc24m_go 13356523 (List.replicate 256 0) = 836299 := by decide
  have h5 : crc24m_go 836299 [12, 194, 203] = 0 := by decide
  have hrep : List.replicate 1024 (0:Nat)
      = List.replicate 256 0 ++ (List.replicate 256 0 ++ (List.replicate 256 0 ++ List.replicate 256 0)) := by
    rw [← List.replicate_add, ← List.replicate_add, ← List.replicate_add]
  rw [crc24_eq_crc24m]
  show crc24m_go 0 ([0xd3, 0x04, 0x00] ++ (List.replicate 1024 0 ++ [12, 194, 203])) = 0
  rw [hrep]
  simp only [List.append_assoc]
  rw [crc24m_go_append, h0, crc24m_go_append, h1, crc24m_go_append, h2,
    crc24m_go_append, h3, crc24m_go_append, h4, h5]

lemma crc24_f262 : crc24 f262 = 0 := by
  have h0 : crc24m_go 0 [0xd3, 0x05, 0x00] = 4003032 := by decide
  have h1 : crc24m_go 4003032 (List.replicate 256 0) = 4736702 := by decide
  have h2 : crc24m_go 4736702 [72, 70, 190] = 0 := by decide
  rw [crc24_eq_crc24m]
  show crc24m_go 0 ([0xd3, 0x05, 0x00] ++ (List.replicate 256 0 ++ [72, 70, 190])) = 0
  rw [crc24m_go_append, h0, crc24m_go_append, h1, h2]

lemma c1frame_length : c1frame.length = 1030 := by
  simp [c1frame]

lemma f262_length : f262.length = 262 := by
  simp [f262]

lemma get_msg_idle (data : List Nat)
    (hnot : ¬(3 < bin_index data RTCM_START ∧
        data.getD ((bin_index data RTCM_START).toNat - 2) 0 = 0x0d ∧
        data.getD ((bin_index data RTCM_START).toNat - 1) 0 = 0x0a))
    (hnot2 : ¬(bin_index data RTCM_START = 0 ∧ 2 < data.length))
    (hnp : ¬0 < bin_index data RTCM_START) :
    get_msg data = ([], data) := by
  simp only [get_msg]
  rw [if_neg hnot, if_neg hnot2, if_neg hnp]

/-- Claim C1 (amended): a message emitted by the reassembler that begins with
the 0xD3 preamble is exactly `L + 6` bytes long, where `L` is the 16-bit
big-endian value of its header bytes 1-2 (this equals the 10-bit declared
payload length whenever the six reserved header bits are zero), and has CRC24
residual 0 over the entire frame; and whenever the candidate frame fails the
CRC check, no frame is emitted and the entire accumulator is cleared. -/
theorem C1_reassembler_frame_integrity (data d st : List Nat)
    (h : get_msg data = (d, st)) :
    (d.head? = some RTCM_START →
      crc24 d = 0 ∧ d.length = ((d.getD 1 0) <<< 8) + d.getD 2 0 + 6) ∧
    (bin_index data RTCM_START = 0 → 2 < data.length →
      ((data.getD 1 0) <<< 8) + data.getD 2 0 ≤ 1024 →
      ((data.getD 1 0) <<< 8) + data.getD 2 0 + 6 ≤ data.length →
      crc24 (data.take (((data.getD 1 0) <<< 8) + data.getD 2 0 + 6)) ≠ 0 →
      d = [] ∧ st = []) := by
  by_cases hA : 3 < bin_index data RTCM_START ∧
      data.getD ((bin_index data RTCM_START).toNat - 2) 0 = 0x0d ∧
      data.getD ((bin_index data RTCM_START).toNat - 1) 0 = 0x0a
  · rw [get_msg_text data hA.1 hA.2.1 hA.2.2] at h
    injection h with hd hst
    subst hd; subst hst
    constructor
    · intro hh
      exfalso
      obtain ⟨x, rest, hdata, hxne⟩ := bin_index_pos_head data RTCM_START (by omega)
      subst hdata
      obtain ⟨m, hm⟩ : ∃ m, (bin_index (x :: rest) RTCM_START).toNat = m + 1 :=
        ⟨(bin_index (x :: rest) RTCM_START).toNat - 1, by omega⟩
      rw [hm, List.take_succ_cons] at hh
      simp only [List.head?_cons, Option.some.injEq] at hh
      exact hxne hh
    · intro h0
      exact absurd h0 (by omega)
  · by_cases hB : bin_index data RTCM_START = 0 ∧ 2 < data.length
    · by_cases hn : 1024 < ((data.getD 1 0) <<< 8) + data.getD 2 0
      · rw [get_msg_scrub_big data hB.1 hB.2 hn] at h
        injection h with hd hst
        subst hd; subst hst
        exact ⟨fun hh => absurd hh (by simp), fun _ _ _ _ _ => ⟨rfl, rfl⟩⟩
      · by_cases hf : ((data.getD 1 0) <<< 8) + data.getD 2 0 + 6 ≤ data.length
        · by_cases hc : crc24 (data.take (((data.getD 1 0) <<< 8) + data.getD 2 0 + 6)) = 0
          · rw [get_msg_emit data hB.1 hB.2 (by omega) hf hc] at h
            injection h with hd hst
            subst hd; subst hst
            constructor
            · intro _
              refine ⟨hc, ?_⟩
              have g1 : (data.take (((data.getD 1 0) <<< 8) + data.getD 2 0 + 6)).getD 1 0
                  = data.getD 1 0 := getD_take _ _ _ (by omega)
              have g2 : (data.take (((data.getD 1 0) <<< 8) + data.getD 2 0 + 6)).getD 2 0
                  = data.getD 2 0 := getD_take _ _ _ (by omega)
              rw [List.length_take, g1, g2]
              omega
            · intro _ _ _ _ hcne
              exact absurd hc hcne
          · rw [get_msg_crcfail data hB.1 hB.2 (by omega) hf hc] at h
            injection h with hd hst
            subst hd; subst hst
            exact ⟨fun hh => absurd hh (by simp), fun _ _ _ _ _ => ⟨rfl, rfl⟩⟩
        · rw [get_msg_incomplete data hB.1 hB.2 (by omega) (by omega)] at h
          injection h with hd hst
          subst hd; subst hst
          exact ⟨fun hh => absurd hh (by simp), fun _ _ _ hfull _ => absurd hfull hf⟩
    · by_cases hp : 0 < bin_index data RTCM_START
      · rw [get_msg_noise data hp hA] at h
        injection h with hd hst
        subst hd; subst hst
        exact ⟨fun hh => absurd hh (by simp), fun h0 hl2 _ _ _ => absurd ⟨h0, hl2⟩ hB⟩
      · rw [get_msg_idle data hA hB hp] at h
        injection h with hd hst
        subst hd; subst hst
        exact ⟨fun hh => absurd hh (by simp), fun h0 hl2 _ _ _ => absurd ⟨h0, hl2⟩ hB⟩

/-- Witness for C1: the zero-payload frame `c5frame` is emitted and satisfies
the integrity conclusions; a six-byte candidate with a wrong trailer makes the
reassembler emit nothing and clear the accumulator. -/
theorem C1_reassembler_frame_integrity_witness :
    (crc24 c5frame = 0 ∧ c5frame.length = ((c5frame.getD 1 0) <<< 8) + c5frame.getD 2 0 + 6) ∧
    (([] : List Nat) = [] ∧ ([] : List Nat) = []) := by
  constructor
  · exact (C1_reassembler_frame_integrity c5frame c5frame [] (by decide)).1 (by decide)
  · exact (C1_reassembler_frame_integrity [0xd3, 0, 0, 0, 0, 0] [] [] (by decide)).2
      (by decide) (by decide) (by decide) (by decide) (by decide)

/-- Counterexample for C1 as stated: `c1frame` (header word 0x0400 = 1024,
one reserved bit set, 10-bit declared length 0) is emitted by the reassembler
as a 1030-byte message beginning with 0xD3, yet its length is not
10-bit-declared-length + 6 = 6. -/
theorem C1_counterexample_reserved_bits :
    get_msg c1frame = (c1frame, []) ∧
    c1frame.head? = some RTCM_START ∧
    c1frame.length ≠ (((c1frame.getD 1 0) &&& 0x3) <<< 8) + c1frame.getD 2 0 + 6 := by
  have h0 : bin_index c1frame RTCM_START = 0 := rfl
  have hg1 : c1frame.getD 1 0 = 0x04 := rfl
  have hg2 : c1frame.getD 2 0 = 0x00 := rfl
  have harg : ((c1frame.getD 1 0) <<< 8) + c1frame.getD 2 0 + 6 = c1frame.length := by
    rw [hg1, hg2, c1frame_length]
    decide
  have htake : c1frame.take (((c1frame.getD 1 0) <<< 8) + c1frame.getD 2 0 + 6) = c1frame := by
    rw [harg, List.take_length]
  have hemit := get_msg_emit c1frame h0 (by rw [c1frame_length]; norm_num)
    (by rw [hg1, hg2]; decide) (by rw [harg]) (by rw [htake]; exact crc24_c1frame)
  rw [htake, harg, List.drop_length] at hemit
  refine ⟨hemit, rfl, ?_⟩
  rw [hg1, hg2, c1frame_length]
  decide

/-- Claim C3 (amended): when the accumulator starts with the 0xD3 preamble and
holds at least 3 bytes, the reassembler reads the length as the full 16-bit
big-endian word of bytes 1-2 (not masked to 10 bits); if that word exceeds
1024 the entire accumulator is discarded and nothing is emitted. -/
theorem C3_oversize_length_scrub (data : List Nat)
    (hhead : data.head? = some RTCM_START)
    (hlen : 3 ≤ data.length)
    (hbig : 1024 < ((data.getD 1 0) <<< 8) + data.getD 2 0) :
    get_msg data = ([], []) := by
  obtain ⟨x, rest, rfl⟩ : ∃ x rest, data = x :: rest := by
    cases data with
    | nil => simp at hhead
    | cons x rest => exact ⟨x, rest, rfl⟩
  have hx : x = RTCM_START := by simpa using hhead
  subst hx
  exact get_msg_scrub_big _ (bin_index_cons_self _ _)
    (by simp only [List.length_cons] at hlen ⊢; omega) hbig

/-- Witness for C3: three bytes `D3 FF FF` (16-bit word 0xFFFF > 1024) are
scrubbed entirely. -/
theorem C3_oversize_length_scrub_witness :
    get_msg [0xd3, 0xff, 0xff] = ([], []) :=
  C3_oversize_length_scrub [0xd3, 0xff, 0xff] (by decide) (by decide) (by decide)

/-- Counterexample for C3 as stated: on `D3 FF FF` the 10-bit declared length
is 1023 ≤ 1024, so the spec-modelled 10-bit reader keeps the bytes buffered,
while the source scrubs the accumulator. -/
theorem C3_counterexample_ten_bit_read :
    get_msg [0xd3, 0xff, 0xff] = ([], []) ∧
    get_msgSpecLen10 [0xd3, 0xff, 0xff] = ([], [0xd3, 0xff, 0xff]) ∧
    (((0xff : Nat) &&& 0x3) <<< 8) + 0xff ≤ 1024 := by decide

/-- Claim C4 (amended): when the first 0xD3 preamble sits at an offset
greater than 3 and the two bytes just before it are CR LF, the prefix is
emitted as text and the preamble-led remainder is retained; at any other
positive offset (including offsets 1-3, even with CR LF in front) the prefix
is discarded, nothing is emitted, and the remainder from the preamble onward
is retained. -/
theorem C4_text_before_preamble (data : List Nat) :
    (3 < bin_index data RTCM_START →
      data.getD ((bin_index data RTCM_START).toNat - 2) 0 = 0x0d →
      data.getD ((bin_index data RTCM_START).toNat - 1) 0 = 0x0a →
      get_msg data = (data.take (bin_index data RTCM_START).toNat,
                      data.drop (bin_index data RTCM_START).toNat)) ∧
    (0 < bin_index data RTCM_START →
      ¬(3 < bin_index data RTCM_START ∧
        data.getD ((bin_index data RTCM_START).toNat - 2) 0 = 0x0d ∧
        data.getD ((bin_index data RTCM_START).toNat - 1) 0 = 0x0a) →
      get_msg data = ([], data.drop (bin_index data RTCM_START).toNat)) :=
  ⟨fun h3 hcr hlf => get_msg_text data h3 hcr hlf,
   fun hpos hnot => get_msg_noise data hpos hnot⟩

/-- Witness for C4: a CRLF-terminated text prefix before a preamble at offset
4 is emitted; a CRLF pair immediately followed by the preamble at offset 2 is
discarded as noise. -/
theorem C4_text_before_preamble_witness :
    get_msg [0x41, 0x42, 0x0d, 0x0a, 0xd3] = ([0x41, 0x42, 0x0d, 0x0a], [0xd3]) ∧
    get_msg [0x0d, 0x0a, 0xd3] = ([], [0xd3]) := by
  constructor
  · have h := (C4_text_before_preamble [0x41, 0x42, 0x0d, 0x0a, 0xd3]).1
      (by decide) (by decide) (by decide)
    rw [h]; decide
  · have h := (C4_text_before_preamble [0x0d, 0x0a, 0xd3]).2 (by decide) (by decide)
    rw [h]; decide

/-- Counterexample for C4 as stated: the preamble at positive offset 2 is
preceded by CR LF, yet nothing is emitted (the claim requires the CRLF-led
prefix `[0x0d, 0x0a]` to be emitted as a plaintext segment). -/
theorem C4_counterexample_offset_two :
    get_msg [0x0d, 0x0a, 0xd3] = ([], [0xd3]) ∧
    bin_index [0x0d, 0x0a, 0xd3] RTCM_START = 2 ∧
    ([] : List Nat) ≠ [0x0d, 0x0a] := by decide

/-- Claim C5 (amended): for a frame whose first byte is 0xD3, whose 16-bit
header word (bytes 1-2, the length the source reads) is at most 1024, whose
total length is that word + 6 and whose CRC24 residual is 0, starting from an
empty accumulator: delivering the bytes split at any point over two polls
emits nothing on the first call and exactly the whole frame on the second,
identical to delivering everything in one poll. -/
theorem C5_split_frame_reassembly (frame : List Nat) (k : Nat)
    (hhead : frame.head? = some RTCM_START)
    (hword : ((frame.getD 1 0) <<< 8) + frame.getD 2 0 ≤ 1024)
    (hflen : frame.length = ((frame.getD 1 0) <<< 8) + frame.getD 2 0 + 6)
    (hcrc : crc24 frame = 0)
    (hk : k < frame.length) :
    receive_rtcm [] (some (frame.take k)) = ([], frame.take k) ∧
    receive_rtcm (frame.take k) (some (frame.drop k)) = (frame, []) ∧
    receive_rtcm [] (some frame) = (frame, []) := by
  obtain ⟨x, rest, rfl⟩ : ∃ x rest, frame = x :: rest := by
    cases frame with
    | nil => simp at hhead
    | cons x rest => exact ⟨x, rest, rfl⟩
  have hx : x = RTCM_START := by simpa using hhead
  subst hx
  have hrl : (RTCM_START :: rest).length = rest.length + 1 := by simp
  have hwhole : get_msg (RTCM_START :: rest) = (RTCM_START :: rest, []) := by
    have htake : (RTCM_START :: rest).take
        ((((RTCM_START :: rest).getD 1 0) <<< 8) + (RTCM_START :: rest).getD 2 0 + 6)
        = RTCM_START :: rest := List.take_of_length_le (by omega)
    have hemit := get_msg_emit (RTCM_START :: rest) (bin_index_cons_self _ _)
      (by omega) hword (by omega) (by rw [htake]; exact hcrc)
    rw [htake, ← hflen, List.drop_length] at hemit
    exact hemit
  refine ⟨?_, ?_, ?_⟩
  · cases k with
    | zero =>
      simp only [List.take_zero]
      rfl
    | succ m =>
      rw [List.take_succ_cons]
      simp only [receive_rtcm]
      rw [if_neg (by simp), List.nil_append]
      by_cases hm : m + 1 ≤ 2
      · exact get_msg_short _ (bin_index_cons_self _ _)
          (by simp only [List.length_cons, List.length_take]; omega)
      · have hg1 : (RTCM_START :: rest.take m).getD 1 0 = (RTCM_START :: rest).getD 1 0 := by
          simp only [List.getD_cons_succ]
          exact getD_take rest m 0 (by omega)
        have hg2 : (RTCM_START :: rest.take m).getD 2 0 = (RTCM_START :: rest).getD 2 0 := by
          simp only [List.getD_cons_succ]
          exact getD_take rest m 1 (by omega)
        apply get_msg_incomplete
        · exact bin_index_cons_self _ _
        · simp only [List.length_cons, List.length_take]
          omega
        · rw [hg1, hg2]; exact hword
        · rw [hg1, hg2]
          simp only [List.length_cons, List.length_take]
          omega
  · have hne : ¬((RTCM_START :: rest).drop k).isEmpty = true := by
      simp only [List.isEmpty_iff]
      intro hnil
      have hlen0 := congrArg List.length hnil
      rw [List.length_drop] at hlen0
      simp only [List.length_nil] at hlen0
      omega
    simp only [receive_rtcm]
    rw [if_neg hne, List.take_append_drop]
    exact hwhole
  · simp only [receive_rtcm]
    rw [if_neg (by simp), List.nil_append]
    exact hwhole

/-- Witness for C5: the six-byte frame `c5frame` split after two bytes is
reassembled across two polls exactly as when delivered whole. -/
theorem C5_split_frame_reassembly_witness :
    receive_rtcm [] (some (c5frame.take 2)) = ([], c5frame.take 2) ∧
    receive_rtcm (c5frame.take 2) (some (c5frame.drop 2)) = (c5frame, []) ∧
    receive_rtcm [] (some c5frame) = (c5frame, []) :=
  C5_split_frame_reassembly c5frame 2 (by decide) (by decide) (by decide)
    (by decide) (by decide)

/-- Counterexample for C5 as stated: `f262` is a valid frame in the claim's
sense (leading 0xD3, 10-bit declared length 256 ≤ 1024, CRC24 residual 0,
length = declared + 6), yet delivering it in one poll emits nothing and
scrubs it, because the source compares the unmasked 16-bit word 0x0500 = 1280
against 1024; the first poll of a split delivery scrubs its prefix too. -/
theorem C5_counterexample_reserved_bits :
    f262.head? = some RTCM_START ∧
    (((f262.getD 1 0) &&& 0x3) <<< 8) + f262.getD 2 0 ≤ 1024 ∧
    f262.length = (((f262.getD 1 0) &&& 0x3) <<< 8) + f262.getD 2 0 + 6 ∧
    crc24 f262 = 0 ∧
    receive_rtcm [] (some f262) = ([], []) ∧
    receive_rtcm [] (some (f262.take 5)) = ([], []) ∧
    ([] : List Nat) ≠ f262 :=
  ⟨rfl, by decide, by decide, crc24_f262, by decide, by decide, by decide⟩

/-! ## Claim C10: totality of the reassembler -/

lemma CRC24_TABLE_length : CRC24_TABLE.length = 256 := by decide

lemma crc24C_go_eq (l : List Nat) : ∀ v, (∀ b ∈ l, b < 256) →
    crc24C_go v l = some (crc24_go v l) := by
  induction l with
  | nil => intro v _; rfl
  | cons b rest ih =>
    intro v hb
    have hblt : b < 256 := hb b (List.mem_cons_self _ _)
    have hmask : (v >>> 16) &&& 0xff < 256 :=
      lt_of_le_of_lt Nat.and_le_right (by norm_num)
    have hidx : b ^^^ ((v >>> 16) &&& 0xff) < 256 := by
      have h256 : (256 : Nat) = 2 ^ 8 := by norm_num
      rw [h256] at hblt hmask ⊢
      exact Nat.xor_lt_two_pow hblt hmask
    have hget : CRC24_TABLE.get? (b ^^^ ((v >>> 16) &&& 0xff))
        = some (CRC24_TABLE.getD (b ^^^ ((v >>> 16) &&& 0xff)) 0) :=
      get?_eq_getD_of_lt _ _ (by rw [CRC24_TABLE_length]; exact hidx)
    show (match CRC24_TABLE.get? (b ^^^ ((v >>> 16) &&& 0xff)) with
      | some e => crc24C_go ((v <<< 8) ^^^ e) rest
      | none => none) = _
    rw [hget]
    exact ih _ (fun x hx => hb x (List.mem_cons_of_mem _ hx))

lemma crc24C_eq (l : List Nat) (h : ∀ b ∈ l, b < 256) : crc24C l = some (crc24 l) := by
  rw [crc24C, crc24C_go_eq l 0 h]
  rfl

lemma get_msgC_rest_eq (data : List Nat) (h : ∀ b ∈ data, b < 256)
    (hnotA : ¬(3 < bin_index data RTCM_START ∧
        data.getD ((bin_index data RTCM_START).toNat - 2) 0 = 0x0d ∧
        data.getD ((bin_index data RTCM_START).toNat - 1) 0 = 0x0a)) :
    get_msgC_rest data = some (get_msg data) := by
  by_cases hB : bin_index data RTCM_START = 0 ∧ 2 < data.length
  · have hg1 : data.get? 1 = some (data.getD 1 0) := get?_eq_getD_of_lt _ _ (by omega)
    have hg2 : data.get? 2 = some (data.getD 2 0) := get?_eq_getD_of_lt _ _ (by omega)
    rw [get_msgC_rest, if_pos hB, hg1, hg2]
    show (if 1024 < ((data.getD 1 0) <<< 8) + data.getD 2 0 then
        some (([] : List Nat), ([] : List Nat))
      else if ((data.getD 1 0) <<< 8) + data.getD 2 0 + 6 ≤ data.length then
        match crc24C (data.take (((data.getD 1 0) <<< 8) + data.getD 2 0 + 6)) with
        | some c =>
          if c = 0 then some (data.take (((data.getD 1 0) <<< 8) + data.getD 2 0 + 6),
              data.drop (((data.getD 1 0) <<< 8) + data.getD 2 0 + 6))
          else some ([], [])
        | none => none
      else some ([], data)) = some (get_msg data)
    by_cases hn : 1024 < ((data.getD 1 0) <<< 8) + data.getD 2 0
    · rw [if_pos hn, get_msg_scrub_big data hB.1 hB.2 hn]
    · rw [if_neg hn]
      by_cases hf : ((data.getD 1 0) <<< 8) + data.getD 2 0 + 6 ≤ data.length
      · rw [if_pos hf]
        have hcrcC : crc24C (data.take (((data.getD 1 0) <<< 8) + data.getD 2 0 + 6))
            = some (crc24 (data.take (((data.getD 1 0) <<< 8) + data.getD 2 0 + 6))) :=
          crc24C_eq _ (fun b hb => h b (List.take_subset _ _ hb))
        rw [hcrcC]
        show (if crc24 (data.take (((data.getD 1 0) <<< 8) + data.getD 2 0 + 6)) = 0 then
            some (data.take (((data.getD 1 0) <<< 8) + data.getD 2 0 + 6),
              data.drop (((data.getD 1 0) <<< 8) + data.getD 2 0 + 6))
          else some ([], [])) = some (get_msg data)
        by_cases hc : crc24 (data.take (((data.getD 1 0) <<< 8) + data.getD 2 0 + 6)) = 0
        · rw [if_pos hc, get_msg_emit data hB.1 hB.2 (by omega) hf hc]
        · rw [if_neg hc, get_msg_crcfail data hB.1 hB.2 (by omega) hf hc]
      · rw [if_neg hf, get_msg_incomplete data hB.1 hB.2 (by omega) (by omega)]
  · rw [get_msgC_rest, if_neg hB]
    by_cases hp : 0 < bin_index data RTCM_START
    · rw [if_pos hp, get_msg_noise data hp hnotA]
    · rw [if_neg hp, get_msg_idle data hnotA hB hp]

lemma get_msgC_eq (data : List Nat) (h : ∀ b ∈ data, b < 256) :
    get_msgC data = some (get_msg data) := by
  by_cases h3 : 3 < bin_index data RTCM_START
  · have hnn : 0 ≤ bin_index data RTCM_START := by omega
    have hlt := bin_index_lt_length data RTCM_START hnn
    have hget2 := get?_eq_getD_of_lt data ((bin_index data RTCM_START).toNat - 2) (by omega)
    have hget1 := get?_eq_getD_of_lt data ((bin_index data RTCM_START).toNat - 1) (by omega)
    simp only [get_msgC]
    rw [if_pos h3, hget2]
    show (if data.getD ((bin_index data RTCM_START).toNat - 2) 0 = 0x0d then
        match data.get? ((bin_index data RTCM_START).toNat - 1) with
        | none => none
        | some b1 =>
          if b1 = 0x0a then
            some (data.take (bin_index data RTCM_START).toNat,
              data.drop (bin_index data RTCM_START).toNat)
          else get_msgC_rest data
      else get_msgC_rest data) = some (get_msg data)
    by_cases hcr : data.getD ((bin_index data RTCM_START).toNat - 2) 0 = 0x0d
    · rw [if_pos hcr, hget1]
      show (if data.getD ((bin_index data RTCM_START).toNat - 1) 0 = 0x0a then
          some (data.take (bin_index data RTCM_START).toNat,
            data.drop (bin_index data RTCM_START).toNat)
        else get_msgC_rest data) = some (get_msg data)
      by_cases hlf : data.getD ((bin_index data RTCM_START).toNat - 1) 0 = 0x0a
      · rw [if_pos hlf, get_msg_text data h3 hcr hlf]
      · rw [if_neg hlf]
        exact get_msgC_rest_eq data h (by rintro ⟨-, -, hx⟩; exact hlf hx)
    · rw [if_neg hcr]
      exact get_msgC_rest_eq data h (by rintro ⟨-, hx, -⟩; exact hcr hx)
  · simp only [get_msgC]
    rw [if_neg h3]
    exact get_msgC_rest_eq data h (by rintro ⟨hx, -, -⟩; exact h3 hx)

/-- Claim C10: for any accumulator contents and any appended chunk of byte
values, `get_msg` and `receive_rtcm` are total: the checked model, in which
every operation the source performs that could raise surfaces `none`, always
returns `some` result, and that result is the (message, new accumulator) pair
of the unchecked function. -/
theorem C10_reassembler_totality (data : List Nat) (part : Option (List Nat))
    (h : ∀ b ∈ data ++ part.getD [], b < 256) :
    get_msgC data = some (get_msg data) ∧
    receive_rtcmC data part = some (receive_rtcm data part) := by
  have hdata : ∀ b ∈ data, b < 256 := fun b hb => h b (List.mem_append_left _ hb)
  refine ⟨get_msgC_eq data hdata, ?_⟩
  cases part with
  | none => exact get_msgC_eq data hdata
  | some p =>
    simp only [receive_rtcmC, receive_rtcm]
    by_cases hp : p.isEmpty
    · rw [if_pos hp]
      exact get_msgC_eq data hdata
    · rw [if_neg hp]
      refine get_msgC_eq (data ++ p) (fun b hb => h b ?_)
      simpa using hb

/-- Witness for C10: a two-byte accumulator plus a one-byte chunk. -/
theorem C10_reassembler_totality_witness :
    get_msgC [0x01, 0xd3] = some (get_msg [0x01, 0xd3]) ∧
    receive_rtcmC [0x01, 0xd3] (some [0x00])
      = some (receive_rtcm [0x01, 0xd3] (some [0x00])) :=
  C10_reassembler_totality [0x01, 0xd3] (some [0x00]) (by decide)


/-! ## Claims about gpsdecoder.py and the source-table parser -/

/-- Claim C2 (code-bug evidence): `decode` propagates an exception on GGA
sentences with a missing or unparsable position field, instead of
substituting the documented defaults.  On `"$GPGGA,0,abcd,N,*5A"` the
latitude `"abcd"` reaches bare `float()` inside `degmin_deg` and raises
`ValueError`; on `"$GPGGA,,,xyz"` the missing longitude field passes `None`
into `degmin_deg`, where `len(None)` raises `TypeError`. -/
theorem C2_decode_raises_on_malformed_gga :
    decode {} "$GPGGA,0,abcd,N,*5A".data = none ∧
    decode {} "$GPGGA,,,xyz".data = none := by decide

lemma pyFloat_48 : pyFloat? "48".data = some 48 := by
  have h1 : pyFloat? "48".data = some (1 * ((digitsVal "48".data : ℕ) : ℚ)) := rfl
  rw [h1, show digitsVal "48".data = 48 from by decide]
  norm_num

lemma pyFloat_07038 : pyFloat? "07.038".data = some (7038 / 1000) := by
  have h1 : pyFloat? "07.038".data
      = some (1 * (((digitsVal "07".data : ℕ) : ℚ)
          + ((digitsVal "038".data : ℕ) : ℚ) / (10 : ℚ) ^ ("038".data).length)) := rfl
  rw [h1, show digitsVal "07".data = 7 from by decide,
    show digitsVal "038".data = 38 from by decide,
    show ("038".data).length = 3 from by decide]
  norm_num

lemma degmin_4807038 (h : List Char) (hin : py_in h "NSEW".data = true)
    (hns : (if py_in h "NS".data then 2 else 3) = 2)
    (hneg : ¬(h = "S".data ∨ h = "W".data)) :
    degmin_deg (some "4807.038".data) (some h) = some (481173 / 10000) := by
  simp only [degmin_deg]
  rw [if_pos (by decide : 4 ≤ ("4807.038".data).length), if_pos hin, hns]
  rw [show "4807.038".data.take 2 = "48".data from by decide,
    show "4807.038".data.drop 2 = "07.038".data from by decide,
    pyFloat_48, pyFloat_07038]
  show some (if h = "S".data ∨ h = "W".data then -(48 + (7038 / 1000 : ℚ) / 60)
      else 48 + (7038 / 1000 : ℚ) / 60) = some (481173 / 10000)
  rw [if_neg hneg]
  norm_num

/-- Claim C7 (amended): with `dm` at least 4 characters long and `h` a
substring of `"NSEW"` (Python's `in`; this admits `""`, `"NS"`, `"SE"`,
`"EW"`, … besides the four single letters), the conversion takes the first 2
characters as whole degrees when `h` is a substring of `"NS"` and the first 3
otherwise, adds remainder/60, and negates exactly when `h` equals `"S"` or
`"W"`; the result is 0.0 when `dm` is shorter than 4 characters or `h` is not
a substring of `"NSEW"`. -/
theorem C7_degmin_conversion (dm h : List Char) :
    (4 ≤ dm.length → py_in h "NSEW".data = true →
      ∀ a b : ℚ,
        pyFloat? (dm.take (if py_in h "NS".data then 2 else 3)) = some a →
        pyFloat? (dm.drop (if py_in h "NS".data then 2 else 3)) = some b →
        degmin_deg (some dm) (some h)
          = some (if h = "S".data ∨ h = "W".data then -(a + b / 60) else a + b / 60)) ∧
    (dm.length < 4 ∨ py_in h "NSEW".data = false →
      degmin_deg (some dm) (some h) = some 0) := by
  constructor
  · intro hlen hin a b ha hb
    simp only [degmin_deg]
    rw [if_pos hlen, if_pos hin, ha, hb]
  · intro hfail
    simp only [degmin_deg]
    rcases hfail with hlen | hin
    · rw [if_neg (by omega)]
    · by_cases hlen : 4 ≤ dm.length
      · rw [if_pos hlen, if_neg (by simp [hin])]
      · rw [if_neg hlen]

/-- Witness for C7: `"4807.038"` with hemisphere `N` gives 48 + 7.038/60 =
48.1173 degrees; hemisphere `Q` and a 2-character string give 0.0. -/
theorem C7_degmin_conversion_witness :
    degmin_deg (some "4807.038".data) (some "N".data) = some (481173 / 10000) ∧
    degmin_deg (some "4807.038".data) (some "Q".data) = some 0 ∧
    degmin_deg (some "48".data) (some "N".data) = some 0 := by
  refine ⟨?_, ?_, ?_⟩
  · have h := (C7_degmin_conversion "4807.038".data "N".data).1 (by decide) (by decide)
      48 (7038 / 1000)
      (by rw [show "4807.038".data.take (if py_in "N".data "NS".data then 2 else 3)
            = "48".data from by decide]; exact pyFloat_48)
      (by rw [show "4807.038".data.drop (if py_in "N".data "NS".data then 2 else 3)
            = "07.038".data from by decide]; exact pyFloat_07038)
    rw [h, if_neg (by decide)]
    norm_num
  · exact (C7_degmin_conversion "4807.038".data "Q".data).2 (Or.inr (by decide))
  · exact (C7_degmin_conversion "48".data "N".data).2 (Or.inl (by decide))

/-- Counterexample for C7 as stated: the empty hemisphere string is outside
{N, S, E, W}, yet the conversion does not return 0.0 — `"" in "NSEW"` is
`True` in Python, so `"4807.038"` with hemisphere `""` yields 48.1173. -/
theorem C7_counterexample_substring_guard :
    degmin_deg (some "4807.038".data) (some ([] : List Char)) = some (481173 / 10000) ∧
    ([] : List Char) ≠ "N".data ∧ ([] : List Char) ≠ "S".data ∧
    ([] : List Char) ≠ "E".data ∧ ([] : List Char) ≠ "W".data ∧
    (481173 / 10000 : ℚ) ≠ 0 := by
  refine ⟨degmin_4807038 [] (by decide) (by decide) (by decide),
    by decide, by decide, by decide, by decide, by norm_num⟩

/-- Claim C6 (amended): a filtered source-table line with fewer than 11
semicolon-separated fields, or with an unparsable latitude or longitude,
contributes the sentinel entry `sources[""] = ("", 0, 0)` (not no entry at
all), and the remaining lines are still processed. -/
theorem C6_malformed_sourcetable_line (l1 l2 : List (List Char)) (bad : List Char)
    (acc : List (List Char × List Char × ℚ × ℚ))
    (h : (pySplit ';' bad).length ≤ 10 ∨
         pyFloat? ((pySplit ';' bad).getD 9 []) = none ∨
         pyFloat? ((pySplit ';' bad).getD 10 []) = none) :
    build_sources acc (l1 ++ bad :: l2)
      = build_sources (dictInsert (build_sources acc l1) [] ([], 0, 0)) l2 := by
  have hbad : get_sourcetable_name_pos bad = ([], [], 0, 0) := by
    simp only [get_sourcetable_name_pos]
    by_cases hl : 10 < (pySplit ';' bad).length
    · rw [if_pos hl]
      have hx : pyFloat? ((pySplit ';' bad).getD 9 []) = none ∨
          pyFloat? ((pySplit ';' bad).getD 10 []) = none := by
        rcases h with h | h | h
        · omega
        · exact Or.inl h
        · exact Or.inr h
      rcases h9 : pyFloat? ((pySplit ';' bad).getD 9 []) with _ | la
      · rfl
      · rcases h10 : pyFloat? ((pySplit ';' bad).getD 10 []) with _ | lo
        · rfl
        · rcases hx with hx | hx
          · rw [h9] at hx; exact absurd hx (by simp)
          · rw [h10] at hx; exact absurd hx (by simp)
    · rw [if_neg hl]
  show (l1 ++ bad :: l2).foldl sources_step acc = _
  rw [List.foldl_append, List.foldl_cons]
  have hstep : sources_step (l1.foldl sources_step acc) bad
      = dictInsert (l1.foldl sources_step acc) [] ([], 0, 0) := by
    simp only [sources_step, hbad]
  rw [hstep]
  rfl

/-- Witness for C6: the malformed line `STR;a;b` (3 fields) inserts the
sentinel entry and parsing continues with nothing left. -/
theorem C6_malformed_sourcetable_line_witness :
    build_sources [] ([] ++ "STR;a;b".data :: [])
      = build_sources (dictInsert (build_sources [] []) [] ([], 0, 0)) [] :=
  C6_malformed_sourcetable_line [] [] "STR;a;b".data [] (Or.inl (by decide))

/-- Counterexample for C6 as stated: the malformed `STR;a;b` line is not
skipped — it contributes an entry (under the empty name) to the resulting
mapping. -/
theorem C6_counterexample_sentinel_entry :
    get_sourcetable_sources "STR;a;b".data none = [([], [], 0, 0)] ∧
    ([([], [], (0 : ℚ), (0 : ℚ))] : List (List Char × List Char × ℚ × ℚ)) ≠ [] := by
  decide

lemma py_in_iff (pat s : List Char) :
    py_in pat s = true ↔ ∃ u v, s = u ++ pat ++ v := by
  induction s with
  | nil =>
    simp only [py_in, List.isEmpty_iff]
    constructor
    · intro hp
      exact ⟨[], [], by simp [hp]⟩
    · rintro ⟨u, v, huv⟩
      have hl := congrArg List.length huv
      simp only [List.length_nil, List.length_append] at hl
      exact List.length_eq_zero.mp (by omega)
  | cons c rest ih =>
    simp only [py_in, Bool.or_eq_true, List.isPrefixOf_iff_prefix]
    constructor
    · rintro (hpre | hin)
      · obtain ⟨w, hw⟩ := hpre
        exact ⟨[], w, by simp [hw.symm]⟩
      · obtain ⟨u, v, huv⟩ := ih.mp hin
        exact ⟨c :: u, v, by simp [huv]⟩
    · rintro ⟨u, v, huv⟩
      cases u with
      | nil =>
        left
        simp only [List.nil_append] at huv
        exact ⟨v, huv.symm⟩
      | cons x u =>
        right
        apply ih.mpr
        simp only [List.cons_append, List.cons.injEq] at huv
        exact ⟨u, v, huv.2⟩

/-- Claim C8 (amended): for a non-empty country filter, the parser keeps
exactly the lines that begin with `STR;` and contain the exact substring
`;FILTER.upper();`: the match is case-insensitive in the filter argument only
— the line's country field must appear in upper case to be matched. -/
theorem C8_sourcetable_filter (table country : List Char) (hc : country ≠ [])
    (line : List Char) :
    line ∈ sourceLinesOf table (some country) ↔
      (line ∈ pySplit '\n' table ∧
       (∃ r, line = "STR;".data ++ r) ∧
       (∃ u v, line = u ++ (';' :: (country.map Char.toUpper) ++ [';']) ++ v)) := by
  simp only [sourceLinesOf]
  rw [if_neg (by simpa using hc)]
  rw [List.mem_filter]
  simp only [Bool.and_eq_true, List.isPrefixOf_iff_prefix, py_in_iff]
  constructor
  · rintro ⟨hmem, ⟨⟨r, hr⟩, hin⟩⟩
    exact ⟨hmem, ⟨r, hr.symm⟩, hin⟩
  · rintro ⟨hmem, ⟨r, hr⟩, hin⟩
    exact ⟨hmem, ⟨⟨r, hr.symm⟩, hin⟩⟩

/-- Witness for C8: a line whose country field is upper-case `GBR` is kept
under the lower-case filter `gbr`. -/
theorem C8_sourcetable_filter_witness :
    "STR;m;;;;;;;GBR;1.0;2.0".data
      ∈ sourceLinesOf "STR;m;;;;;;;GBR;1.0;2.0".data (some "gbr".data) := by
  refine (C8_sourcetable_filter "STR;m;;;;;;;GBR;1.0;2.0".data "gbr".data
      (by decide) "STR;m;;;;;;;GBR;1.0;2.0".data).mpr
    ⟨by decide, ⟨"m;;;;;;;GBR;1.0;2.0".data, by decide⟩,
     ⟨"STR;m;;;;;;".data, "1.0;2.0".data, by decide⟩⟩

/-- Counterexample for C8 as stated: a line whose country field differs from
the filter only in letter case (`gbr` in the line, filter `GBR`) is NOT
selected, because only the filter is upper-cased; the same line with
upper-case `GBR` is selected. -/
theorem C8_counterexample_case_sensitive_line :
    sourceLinesOf "STR;m;;;;;;;gbr;1.0;2.0".data (some "GBR".data) = [] ∧
    sourceLinesOf "STR;m;;;;;;;GBR;1.0;2.0".data (some "GBR".data)
      = ["STR;m;;;;;;;GBR;1.0;2.0".data] := by decide

/-- Claim C9 (amended): for every non-negative quality code `q` held in the
record, `qualstr` returns the `q`-th entry of the fix-quality table when `q`
indexes validly into it, and the string `"?"` (not `"unknown"`) for every
out-of-range non-negative code. -/
theorem C9_quality_name_lookup (q : Nat) :
    qualstr (q : Int) = some (if q < qualstrs.length then qualstrs.getD q "" else "?") := by
  by_cases hq : q < qualstrs.length
  · rw [if_pos hq, qualstr, if_pos (by exact_mod_cast hq), if_pos (by positivity)]
    simp
  · rw [if_neg hq, qualstr, if_neg (by exact_mod_cast hq)]

/-- Counterexample for C9 as stated: the out-of-range code 7 renders as `"?"`,
not `"unknown"`. -/
theorem C9_counterexample_question_mark :
    qualstr 7 = some "?" ∧ ("?" : String) ≠ "unknown" := by decide
